import Mathlib

/-!
Verification of the asynchronous task-orchestration subsystem of the
napari-copick plugin, as a shallow embedding of the Python source
(src/napari_copick/async_loaders.py, widget.py, tree_widget.py).

Machine integers and floats of the source are modelled as Nat / Int / ℚ;
Python lists and insertion-ordered dicts as Lean lists and association
lists; Python sets as Finset; raised exceptions as Except values.
-/

set_option maxHeartbeats 1000000
set_option linter.unnecessarySeqFocus false

namespace NapariCopick

/-! ## Python-semantics helpers -/

/-- Python list indexing semantics: a non-negative index selects from the
front, a negative index counts from the back, out of range gives an
IndexError (here: none). -/
def pyListGet {α : Type} (l : List α) (i : Int) : Option α :=
  if 0 ≤ i then l.get? i.toNat
  else if (-i).toNat ≤ l.length then l.get? (l.length - (-i).toNat) else none

/-- Python `2 ** k` for an integer exponent: an integer power for
non-negative exponents, a reciprocal power for negative ones. -/
def pyPow2 (i : Int) : ℚ :=
  if 0 ≤ i then ((2 : ℚ) ^ i.toNat) else 1 / ((2 : ℚ) ^ (-i).toNat)

/-- Python `str.isdigit()` restricted to ASCII content: true iff the string
is non-empty and every character is a decimal digit. -/
def pyIsDigit (s : String) : Bool :=
  !s.data.isEmpty && s.data.all Char.isDigit

/-- Python `int(s)` on a digit string: its decimal value. -/
def digitVal (s : String) : Nat :=
  s.data.foldl (fun n c => n * 10 + (c.toNat - 48)) 0

/-- The character for one decimal digit, as Python renders it. -/
def pyDigitChar (d : Nat) : Char := Char.ofNat (48 + d)

/-- Numeric value of a decimal digit character. -/
def pyCharVal (c : Char) : Nat := c.toNat - 48

/-- Python `str(n)` for a non-negative int: its decimal rendering. -/
def pyNatStr (n : Nat) : String :=
  if n = 0 then "0" else String.mk (((Nat.digits 10 n).map pyDigitChar).reverse)

/-! ## The chunked-array store (zarr) model

A zarr group behaves as an insertion-ordered mapping from string keys to
arrays; the arrays themselves are opaque for this development, carrying
only a shape. -/

/-- An N-dimensional stored array; only its shape is relevant here. -/
structure ZArray where
  shape : List Nat
deriving DecidableEq, Repr

/-- A zarr group: an ordered association of member names to arrays. -/
def ZGroup := List (String × ZArray)

instance : DecidableEq ZGroup := inferInstanceAs (DecidableEq (List (String × ZArray)))

/-- Member names of a group, in insertion order, like zarr_group.keys(). -/
def ZGroup.keys (g : ZGroup) : List String := g.map Prod.fst

/-- Lookup of the first entry with a given name in an association list. -/
def zmemberAux : List (String × ZArray) → String → Option ZArray
  | [], _ => none
  | (k', a) :: rest, k => if k' = k then some a else zmemberAux rest k

/-- Group member access zarr_group[k]: the first entry named k. -/
def ZGroup.member (g : ZGroup) (k : String) : Option ZArray :=
  zmemberAux g k

/-- Stable insertion of a key into a list sorted by integer value,
matching Python's stable list.sort(key=int) on digit strings. -/
def insertByVal (x : String) : List String → List String
  | [] => [x]
  | y :: ys =>
    if digitVal y ≤ digitVal x then y :: insertByVal x ys else x :: y :: ys

/-- Stable sort of digit-named keys by integer value:
scale_levels.sort(key=int). -/
def sortByVal (l : List String) : List String :=
  l.foldl (fun acc x => insertByVal x acc) []

/-- The multiscale levels of a group: the digit-named members, sorted
numerically ascending (async_loaders.py lines 27-28). -/
def scaleLevels (g : ZGroup) : List String :=
  sortByVal (g.keys.filter (fun k => pyIsDigit k))

/-! ## Worker outcomes -/

/-- Errors a load worker can raise across the task boundary. -/
inductive LoadError where
  | noScaleLevels (msg : String)
  | indexError
  | keyError
deriving DecidableEq, Repr

instance {ε α : Type} [DecidableEq ε] [DecidableEq α] : DecidableEq (Except ε α) :=
  fun a b =>
    match a, b with
    | .error e₁, .error e₂ =>
      if h : e₁ = e₂ then .isTrue (by rw [h]) else .isFalse (by intro hc; cases hc; exact h rfl)
    | .ok v₁, .ok v₂ =>
      if h : v₁ = v₂ then .isTrue (by rw [h]) else .isFalse (by intro hc; cases hc; exact h rfl)
    | .error _, .ok _ => .isFalse (by intro hc; cases hc)
    | .ok _, .error _ => .isFalse (by intro hc; cases hc)

/-- The result dict returned by load_tomogram_worker. -/
structure TomogramResult where
  data : ZArray
  voxelSize : List ℚ
  name : String
  resolutionLevel : Int
deriving DecidableEq, Repr

/-- A tomogram entity: its display type, its opened zarr group (the value
of zarr.open(tomogram.zarr())), the base voxel size of its voxel spacing
(tomogram.voxel_spacing.meta.voxel_size), and its CPython object id. -/
structure Tomogram where
  tomoType : String
  zarrGroup : ZGroup
  baseVoxelSize : ℚ
  pyId : Nat
deriving DecidableEq

/-- Result-or-error of a tomogram load, together with the warning log
lines the worker emitted. -/
structure TomoWorkerOut where
  result : Except LoadError TomogramResult
  warnings : List String
deriving DecidableEq

/-- The clamp warning text of async_loaders.py line 38 / 104. -/
def clampWarning (requested : Int) (numLevels : Nat) : String :=
  "Requested resolution level " ++ toString requested ++
    " not available, using highest available: " ++ toString (numLevels - 1)

/-- The resolution selector of the source (async_loaders.py lines 36-39):
a requested level at or past the number of available levels is replaced by
the index of the last available level; any other request passes through. -/
def effectiveLevel (numLv : Nat) (req : Int) : Int :=
  if req ≥ (numLv : Int) then ((numLv : Int) - 1) else req

/-- load_tomogram_worker (async_loaders.py lines 11-76): enumerate the
digit-named scale levels sorted ascending; fail when none exist; clamp the
requested level down to the last available one; select that level's array
and report voxel size base * 2 ^ level in all three components. -/
def load_tomogram_worker (t : Tomogram) (resolutionLevel : Int) : TomoWorkerOut :=
  let levels := scaleLevels t.zarrGroup
  if levels.isEmpty then
    { result := .error (.noScaleLevels ("No scale levels found in tomogram: " ++ t.tomoType)),
      warnings := [] }
  else
    let warns := if resolutionLevel ≥ (levels.length : Int) then
        [clampWarning resolutionLevel levels.length] else []
    let effLevel : Int := effectiveLevel levels.length resolutionLevel
    match pyListGet levels effLevel with
    | none => { result := .error .indexError, warnings := warns }
    | some selectedKey =>
      match t.zarrGroup.member selectedKey with
      | none => { result := .error .keyError, warnings := warns }
      | some arr =>
        let scaleFactor := pyPow2 effLevel
        { result := .ok
            { data := arr,
              voxelSize := List.replicate 3 (t.baseVoxelSize * scaleFactor),
              name := "Tomogram: " ++ t.tomoType ++ " (Level " ++ toString effLevel ++ ")",
              resolutionLevel := effLevel },
          warnings := warns }

/-- Number of available multiscale levels of a tomogram's storage. -/
def numLevels (t : Tomogram) : Nat := (scaleLevels t.zarrGroup).length

/-! ## Supporting lemmas about the level enumeration -/

theorem mem_insertByVal {x y : String} {l : List String} :
    y ∈ insertByVal x l ↔ y = x ∨ y ∈ l := by
  induction l with
  | nil => simp [insertByVal]
  | cons z zs ih =>
    simp only [insertByVal]
    split <;> simp only [List.mem_cons, ih] <;> tauto

theorem mem_sortByVal_aux {y : String} (l acc : List String) :
    y ∈ l.foldl (fun acc x => insertByVal x acc) acc ↔ y ∈ acc ∨ y ∈ l := by
  induction l generalizing acc with
  | nil => simp
  | cons z zs ih =>
    simp only [List.foldl_cons, ih, mem_insertByVal, List.mem_cons]
    tauto

theorem mem_sortByVal {y : String} {l : List String} :
    y ∈ sortByVal l ↔ y ∈ l := by
  simp [sortByVal, mem_sortByVal_aux]

theorem length_insertByVal (x : String) (l : List String) :
    (insertByVal x l).length = l.length + 1 := by
  induction l with
  | nil => rfl
  | cons z zs ih =>
    simp only [insertByVal]
    split
    · simp [ih]
    · simp

theorem length_sortByVal_aux (l acc : List String) :
    (l.foldl (fun acc x => insertByVal x acc) acc).length = acc.length + l.length := by
  induction l generalizing acc with
  | nil => rfl
  | cons z zs ih =>
    simp only [List.foldl_cons, ih, length_insertByVal, List.length_cons]
    omega

theorem length_sortByVal (l : List String) : (sortByVal l).length = l.length := by
  simp [sortByVal, length_sortByVal_aux]

theorem mem_keys_of_mem_scaleLevels {g : ZGroup} {k : String}
    (h : k ∈ scaleLevels g) : k ∈ g.keys := by
  have := mem_sortByVal.mp h
  exact List.mem_of_mem_filter this

theorem member_exists_of_mem_keys {g : ZGroup} {k : String}
    (h : k ∈ g.keys) : ∃ a, g.member k = some a := by
  induction g with
  | nil => simp [ZGroup.keys] at h
  | cons p ps ih =>
    simp only [ZGroup.keys, List.map_cons, List.mem_cons] at h
    by_cases hk : p.1 = k
    · exact ⟨p.2, by simp [ZGroup.member, zmemberAux, hk]⟩
    · have hmem : k ∈ ZGroup.keys ps := by
        rcases h with h | h
        · exact absurd h.symm hk
        · exact h
      obtain ⟨a, ha⟩ := ih hmem
      refine ⟨a, ?_⟩
      show zmemberAux (p :: ps) k = some a
      rw [show p = (p.1, p.2) from rfl]
      simp only [zmemberAux, if_neg hk]
      exact ha

theorem pyListGet_eq_get {α : Type} {l : List α} {i : Int}
    (h0 : 0 ≤ i) (hlt : i < (l.length : Int)) :
    ∃ hm : i.toNat < l.length, pyListGet l i = some (l.get ⟨i.toNat, hm⟩) := by
  have hm : i.toNat < l.length := by omega
  exact ⟨hm, by simp [pyListGet, h0, List.get?_eq_get hm]⟩

/-- Bounds of the effective level when at least one level exists and the
request is non-negative, together with its min characterisation. -/
theorem effectiveLevel_spec (numLv : Nat) (req : Int) (h1 : 1 ≤ numLv) (h0 : 0 ≤ req) :
    effectiveLevel numLv req = min req ((numLv : Int) - 1) ∧
    0 ≤ effectiveLevel numLv req ∧ effectiveLevel numLv req < (numLv : Int) := by
  unfold effectiveLevel
  split <;> omega

/-- Anatomy of a successful tomogram load: with at least one scale level
and a non-negative request, the worker returns a result at the clamped
level, selecting that level's array, with binned voxel size, warning
exactly when it clamped. -/
theorem load_tomogram_worker_success (t : Tomogram) (req : Int)
    (h0 : 0 ≤ req) (h1 : 1 ≤ numLevels t) :
    ∃ (k : String) (arr : ZArray),
      pyListGet (scaleLevels t.zarrGroup) (effectiveLevel (numLevels t) req) = some k ∧
      t.zarrGroup.member k = some arr ∧
      load_tomogram_worker t req =
        { result := .ok
            { data := arr,
              voxelSize := List.replicate 3
                (t.baseVoxelSize * pyPow2 (effectiveLevel (numLevels t) req)),
              name := "Tomogram: " ++ t.tomoType ++ " (Level " ++
                toString (effectiveLevel (numLevels t) req) ++ ")",
              resolutionLevel := effectiveLevel (numLevels t) req },
          warnings := if req ≥ (numLevels t : Int) then
            [clampWarning req (numLevels t)] else [] } := by
  obtain ⟨hmin, heff0, hefflt⟩ := effectiveLevel_spec (numLevels t) req h1 h0
  obtain ⟨hm, hget⟩ := pyListGet_eq_get (l := scaleLevels t.zarrGroup) heff0
    (by exact_mod_cast hefflt)
  set k := (scaleLevels t.zarrGroup).get ⟨(effectiveLevel (numLevels t) req).toNat, hm⟩
    with hkdef
  have hkmem : k ∈ scaleLevels t.zarrGroup := by
    rw [hkdef]; exact List.get_mem _ _ _
  obtain ⟨arr, harr⟩ := member_exists_of_mem_keys (mem_keys_of_mem_scaleLevels hkmem)
  refine ⟨k, arr, hget, harr, ?_⟩
  have hne : (scaleLevels t.zarrGroup).isEmpty = false := by
    cases hsc : scaleLevels t.zarrGroup with
    | nil => simp [numLevels, hsc] at h1
    | cons a as => simp [List.isEmpty]
  unfold load_tomogram_worker
  simp only [hne, Bool.false_eq_true, if_false]
  have hnum : (scaleLevels t.zarrGroup).length = numLevels t := rfl
  rw [hnum]
  simp only [hget, harr]

/-- The property asserted by claim C3, for one tomogram and one request. -/
def C3Property (t : Tomogram) (req : Int) : Prop :=
  ∃ (r : TomogramResult) (k : String),
    (load_tomogram_worker t req).result = .ok r ∧
    r.resolutionLevel = min req ((numLevels t : Int) - 1) ∧
    0 ≤ r.resolutionLevel ∧ r.resolutionLevel ≤ (numLevels t : Int) - 1 ∧
    pyListGet (scaleLevels t.zarrGroup) r.resolutionLevel = some k ∧
    t.zarrGroup.member k = some r.data ∧
    r.voxelSize = List.replicate 3 (t.baseVoxelSize * pyPow2 r.resolutionLevel) ∧
    ((load_tomogram_worker t req).warnings ≠ [] ↔ (numLevels t : Int) ≤ req) ∧
    (numLevels t = 3 → req = 5 → r.resolutionLevel = 2 ∧
      r.voxelSize = List.replicate 3 (t.baseVoxelSize * 4))

/-- C3: a tomogram load with at least one available level and a
non-negative requested level (the plugin always passes a combo-box index,
which is non-negative) clamps the request into the valid index range,
uses the effective level both to select the array and to compute the
voxel size as base * 2 ^ level in all three components, warns exactly
when it clamps, and in particular 3 levels with request 5 give effective
level 2 and voxel size base * 4. -/
theorem claim_C3 (t : Tomogram) (req : Int) (h0 : 0 ≤ req) (h1 : 1 ≤ numLevels t) :
    C3Property t req := by
  obtain ⟨hmin, heff0, hefflt⟩ := effectiveLevel_spec (numLevels t) req h1 h0
  obtain ⟨k, arr, hget, harr, heq⟩ := load_tomogram_worker_success t req h0 h1
  refine ⟨_, k, by rw [heq], ?_, ?_, ?_, ?_, ?_, ?_, ?_, ?_⟩
  · exact hmin
  · exact heff0
  · show effectiveLevel (numLevels t) req ≤ (numLevels t : Int) - 1
    omega
  · exact hget
  · exact harr
  · rfl
  · rw [heq]
    by_cases hle : (numLevels t : Int) ≤ req
    · simp [ge_iff_le, hle, clampWarning]
    · simp [ge_iff_le, hle]
  · intro h3 h5
    have heff2 : effectiveLevel (numLevels t) req = 2 := by
      rw [hmin, h3, h5]; decide
    refine ⟨heff2, ?_⟩
    show List.replicate 3 (t.baseVoxelSize * pyPow2 (effectiveLevel (numLevels t) req)) =
      List.replicate 3 (t.baseVoxelSize * 4)
    rw [heff2, show pyPow2 2 = (4 : ℚ) from by decide]

/-- The property asserted by claim C5, for one tomogram and one request. -/
def C5Property (t : Tomogram) (req : Int) : Prop :=
  (numLevels t = 0 →
    load_tomogram_worker t req =
      { result := .error (.noScaleLevels
          ("No scale levels found in tomogram: " ++ t.tomoType)),
        warnings := [] }) ∧
  ((numLevels t : Int) ≤ req → 1 ≤ numLevels t →
    ∃ r, (load_tomogram_worker t req).result = .ok r ∧
      r.resolutionLevel = (numLevels t : Int) - 1) ∧
  (0 ≤ req →
    ((∃ e, (load_tomogram_worker t req).result = .error e) ↔ numLevels t = 0))

/-- C5: a tomogram whose storage has no digit-named level fails with the
NoScaleLevels error and yields no result; a request at or beyond the
number of available levels never errors, it clamps to the last level; and
(for the non-negative requests the plugin issues) the no-levels case is
the only level-related failure. -/
theorem claim_C5 (t : Tomogram) (req : Int) : C5Property t req := by
  refine ⟨?_, ?_, ?_⟩
  · intro h0
    have hnil : scaleLevels t.zarrGroup = [] := by
      have := h0
      unfold numLevels at this
      exact List.length_eq_zero.mp this
    unfold load_tomogram_worker
    simp [hnil]
  · intro hge h1
    obtain ⟨k, arr, hget, harr, heq⟩ := load_tomogram_worker_success t req (by omega) h1
    refine ⟨_, by rw [heq], ?_⟩
    show effectiveLevel (numLevels t) req = (numLevels t : Int) - 1
    unfold effectiveLevel
    rw [if_pos (by omega)]
  · intro h0
    constructor
    · rintro ⟨e, he⟩
      by_contra hne
      have h1 : 1 ≤ numLevels t := by omega
      obtain ⟨k, arr, hget, harr, heq⟩ := load_tomogram_worker_success t req h0 h1
      rw [heq] at he
      simp at he
    · intro h00
      have hnil : scaleLevels t.zarrGroup = [] := by
        unfold numLevels at h00
        exact List.length_eq_zero.mp h00
      refine ⟨.noScaleLevels ("No scale levels found in tomogram: " ++ t.tomoType), ?_⟩
      unfold load_tomogram_worker
      simp [hnil]

/-- A three-level multiscale group, as in the end-to-end spec scenario. -/
def grpThree : ZGroup :=
  [("0", ⟨[100, 100, 100]⟩), ("1", ⟨[50, 50, 50]⟩), ("2", ⟨[25, 25, 25]⟩)]

/-- A tomogram with three scale levels and base voxel size 10. -/
def tomoThree : Tomogram :=
  { tomoType := "wbp", zarrGroup := grpThree, baseVoxelSize := 10, pyId := 11 }

/-- A tomogram whose storage carries no digit-named member at all. -/
def tomoNoLevels : Tomogram :=
  { tomoType := "wbp", zarrGroup := [("labels", ⟨[100, 100, 100]⟩)],
    baseVoxelSize := 10, pyId := 12 }

/-! ## Segmentation loads (claim C4) -/

/-- A segmentation entity: display name, author and session ids, the
multilabel flag, its opened zarr group, its base voxel size
(segmentation.meta.voxel_size) and its CPython object id. -/
structure Segmentation where
  name : String
  userId : String
  sessionId : String
  isMultilabel : Bool
  zarrGroup : ZGroup
  baseVoxelSize : ℚ
  pyId : Nat
deriving DecidableEq

/-- The result dict returned by load_segmentation_worker. -/
structure SegmentationResult where
  data : ZArray
  voxelSize : List ℚ
  name : String
  resolutionLevel : Int
deriving DecidableEq, Repr

/-- Result-or-error of a segmentation load plus emitted warning lines. -/
structure SegWorkerOut where
  result : Except LoadError SegmentationResult
  warnings : List String
deriving DecidableEq

/-- The tail of load_segmentation_worker (async_loaders.py lines 114-146):
read the resolved data key, then branch on whether the key is digit-named:
multiscale keys get voxel size base * 2 ^ resolutionLevel, any other key
gets the base voxel size with the reported level reset to 0. -/
def finishSegmentationLoad (s : Segmentation) (dataKey : String)
    (resolutionLevel : Int) (warns : List String) : SegWorkerOut :=
  match s.zarrGroup.member dataKey with
  | none => { result := .error .keyError, warnings := warns }
  | some arr =>
    if pyIsDigit dataKey then
      { result := .ok
          { data := arr,
            voxelSize := List.replicate 3 (s.baseVoxelSize * pyPow2 resolutionLevel),
            name := "Segmentation: " ++ s.name ++ " (Level " ++
              toString resolutionLevel ++ ")",
            resolutionLevel := resolutionLevel },
        warnings := warns }
    else
      { result := .ok
          { data := arr,
            voxelSize := List.replicate 3 s.baseVoxelSize,
            name := "Segmentation: " ++ s.name ++ " (Level 0)",
            resolutionLevel := 0 },
        warnings := warns }

/-- load_segmentation_worker (async_loaders.py lines 79-151): if a member
literally named data exists it is used; otherwise, if a member named 0
exists, the digit-named levels are enumerated and the clamped requested
level is selected; otherwise the first member present is used. -/
def load_segmentation_worker (s : Segmentation) (resolutionLevel : Int) : SegWorkerOut :=
  let keys := s.zarrGroup.keys
  if "data" ∈ keys then
    finishSegmentationLoad s "data" resolutionLevel []
  else if "0" ∈ keys then
    let levels := scaleLevels s.zarrGroup
    let warns := if resolutionLevel ≥ (levels.length : Int) then
        [clampWarning resolutionLevel levels.length] else []
    let effLevel := effectiveLevel levels.length resolutionLevel
    match pyListGet levels effLevel with
    | none => { result := .error .indexError, warnings := warns }
    | some k => finishSegmentationLoad s k effLevel warns
  else
    match keys.head? with
    | none => { result := .error .indexError, warnings := [] }
    | some k => finishSegmentationLoad s k resolutionLevel []

/-- Modelled from the claim wording of C4 (and spec section 4.3, clause
LoadSegmentation (b)): the data key the claim says should be selected —
data if present, else the clamped multiscale level whenever digit-named
levels exist at all, else the first member. -/
def specSegmentationDataKey (g : ZGroup) (req : Int) : Option String :=
  if "data" ∈ g.keys then some "data"
  else if (scaleLevels g).isEmpty = false then
    pyListGet (scaleLevels g) (effectiveLevel (scaleLevels g).length req)
  else g.keys.head?

/-- The array a successful segmentation load returned, if any. -/
def segLoadedData (o : SegWorkerOut) : Option ZArray :=
  match o.result with
  | .ok r => some r.data
  | .error _ => none

/-- The selection property claim C4 asserts of the code: a successful
load reads its array from the member the claim's priority rule names. -/
def C4SpecSelection (s : Segmentation) (req : Int) : Prop :=
  ∀ k, specSegmentationDataKey s.zarrGroup req = some k →
    segLoadedData (load_segmentation_worker s req) = s.zarrGroup.member k

/-- A segmentation whose group has digit-named members 1 and 2 but no
member named 0 and no member named data. -/
def segTwoLevels : Segmentation :=
  { name := "membrane", userId := "alice", sessionId := "1",
    isMultilabel := false,
    zarrGroup := [("1", ⟨[50, 50, 50]⟩), ("2", ⟨[25, 25, 25]⟩)],
    baseVoxelSize := 10, pyId := 21 }

/-- C4 fails on the code: with group members named 1 and 2 (digit-named
levels exist, but none named 0) and requested level 1, the claim's clause
(b) selects the clamped level key 2, while the code falls through to the
first-member fallback and reads member 1. -/
theorem claim_C4_counterexample : ¬ C4SpecSelection segTwoLevels 1 := by
  intro h
  exact absurd (h "2" (by decide)) (by decide)

/-! ### Supporting lemmas for the amended C4 -/

theorem mem_scaleLevels_isDigit {g : ZGroup} {k : String}
    (h : k ∈ scaleLevels g) : pyIsDigit k = true :=
  (List.mem_filter.mp (mem_sortByVal.mp h)).2

theorem zero_mem_scaleLevels {g : ZGroup} (h : "0" ∈ g.keys) :
    "0" ∈ scaleLevels g :=
  mem_sortByVal.mpr (List.mem_filter.mpr ⟨h, by decide⟩)

/-- The property claim C4 holds after amendment: clause (b) applies only
when a member named 0 exists; the fallback clause covers every other
group, and when the fallback member happens to be digit-named the voxel
size uses the unclamped requested level. -/
def C4AmendedProperty (s : Segmentation) (req : Int) : Prop :=
  ("data" ∈ s.zarrGroup.keys →
    ∃ r, (load_segmentation_worker s req).result = .ok r ∧
      s.zarrGroup.member "data" = some r.data ∧
      r.resolutionLevel = 0 ∧
      r.voxelSize = List.replicate 3 s.baseVoxelSize ∧
      (∀ req2 : Int, load_segmentation_worker s req2 = load_segmentation_worker s req)) ∧
  ("data" ∉ s.zarrGroup.keys → "0" ∈ s.zarrGroup.keys → 0 ≤ req →
    ∃ r k, (load_segmentation_worker s req).result = .ok r ∧
      pyListGet (scaleLevels s.zarrGroup)
        (effectiveLevel (scaleLevels s.zarrGroup).length req) = some k ∧
      s.zarrGroup.member k = some r.data ∧
      r.resolutionLevel = min req (((scaleLevels s.zarrGroup).length : Int) - 1) ∧
      r.voxelSize = List.replicate 3 (s.baseVoxelSize * pyPow2 r.resolutionLevel)) ∧
  ("data" ∉ s.zarrGroup.keys → "0" ∉ s.zarrGroup.keys →
    ∀ k0 a0 rest, s.zarrGroup = (k0, a0) :: rest →
    ∃ r, (load_segmentation_worker s req).result = .ok r ∧ r.data = a0 ∧
      (pyIsDigit k0 = true → r.resolutionLevel = req ∧
        r.voxelSize = List.replicate 3 (s.baseVoxelSize * pyPow2 req)) ∧
      (pyIsDigit k0 = false → r.resolutionLevel = 0 ∧
        r.voxelSize = List.replicate 3 s.baseVoxelSize))

/-- C4 as amended: the data key of a segmentation load is resolved by
priority (a) a member literally named data — requested level ignored,
level 0 with scale factor 1 reported; (b) else, when a member named 0
exists, the digit-named levels are enumerated and the clamped level is
selected as for tomograms; (c) else the first group member present is
selected, and if that member is digit-named the reported level and scale
factor use the unclamped requested level. -/
theorem claim_C4_amended (s : Segmentation) (req : Int) : C4AmendedProperty s req := by
  refine ⟨?_, ?_, ?_⟩
  · intro hdata
    obtain ⟨a, ha⟩ := member_exists_of_mem_keys hdata
    have hnd : ¬ (pyIsDigit "data" = true) := by decide
    have hrun : ∀ rq : Int, load_segmentation_worker s rq =
        { result := .ok
            { data := a,
              voxelSize := List.replicate 3 s.baseVoxelSize,
              name := "Segmentation: " ++ s.name ++ " (Level 0)",
              resolutionLevel := 0 },
          warnings := [] } := by
      intro rq
      unfold load_segmentation_worker
      rw [if_pos hdata]
      unfold finishSegmentationLoad
      simp only [ha]
      rw [if_neg hnd]
    exact ⟨_, by rw [hrun req], ha, rfl, rfl, fun req2 => by rw [hrun req2, hrun req]⟩
  · intro hnodata hzero h0
    have hzl : "0" ∈ scaleLevels s.zarrGroup := zero_mem_scaleLevels hzero
    have hlen : 1 ≤ (scaleLevels s.zarrGroup).length :=
      List.length_pos.mpr (List.ne_nil_of_mem hzl)
    obtain ⟨hmin, heff0, hefflt⟩ := effectiveLevel_spec _ req hlen h0
    obtain ⟨hm, hget⟩ := pyListGet_eq_get (l := scaleLevels s.zarrGroup) heff0
      (by exact_mod_cast hefflt)
    set k := (scaleLevels s.zarrGroup).get
      ⟨(effectiveLevel (scaleLevels s.zarrGroup).length req).toNat, hm⟩ with hkdef
    have hkmem : k ∈ scaleLevels s.zarrGroup := by
      rw [hkdef]; exact List.get_mem _ _ _
    obtain ⟨arr, harr⟩ := member_exists_of_mem_keys (mem_keys_of_mem_scaleLevels hkmem)
    have hkd : pyIsDigit k = true := mem_scaleLevels_isDigit hkmem
    refine ⟨{ data := arr,
              voxelSize := List.replicate 3 (s.baseVoxelSize *
                pyPow2 (effectiveLevel (scaleLevels s.zarrGroup).length req)),
              name := "Segmentation: " ++ s.name ++ " (Level " ++
                toString (effectiveLevel (scaleLevels s.zarrGroup).length req) ++ ")",
              resolutionLevel := effectiveLevel (scaleLevels s.zarrGroup).length req },
      k, ?_, hget, harr, hmin, rfl⟩
    unfold load_segmentation_worker
    rw [if_neg hnodata, if_pos hzero]
    simp only [hget]
    unfold finishSegmentationLoad
    simp only [harr]
    rw [if_pos hkd]
  · intro hnodata hnozero k0 a0 rest hg
    have hhead : (ZGroup.keys s.zarrGroup).head? = some k0 := by
      rw [hg]; rfl
    have hmem : s.zarrGroup.member k0 = some a0 := by
      rw [hg]; simp [ZGroup.member, zmemberAux]
    have hrun : load_segmentation_worker s req = finishSegmentationLoad s k0 req [] := by
      unfold load_segmentation_worker
      rw [if_neg hnodata, if_neg hnozero]
      simp only [hhead]
    by_cases hd : pyIsDigit k0 = true
    · have hfin : finishSegmentationLoad s k0 req [] =
          { result := .ok
              { data := a0,
                voxelSize := List.replicate 3 (s.baseVoxelSize * pyPow2 req),
                name := "Segmentation: " ++ s.name ++ " (Level " ++ toString req ++ ")",
                resolutionLevel := req },
            warnings := [] } := by
        unfold finishSegmentationLoad
        simp only [hmem]
        rw [if_pos hd]
      exact ⟨_, by rw [hrun, hfin], rfl, fun _ => ⟨rfl, rfl⟩,
        fun hf => absurd hd (by simp [hf])⟩
    · have hfin : finishSegmentationLoad s k0 req [] =
          { result := .ok
              { data := a0,
                voxelSize := List.replicate 3 s.baseVoxelSize,
                name := "Segmentation: " ++ s.name ++ " (Level 0)",
                resolutionLevel := 0 },
            warnings := [] } := by
        unfold finishSegmentationLoad
        simp only [hmem]
        rw [if_neg hd]
      exact ⟨_, by rw [hrun, hfin], rfl, fun hf => absurd hf hd,
        fun _ => ⟨rfl, rfl⟩⟩

/-- A segmentation whose group holds exactly one member, named data. -/
def segDataOnly : Segmentation :=
  { name := "organelle", userId := "bob", sessionId := "2",
    isMultilabel := true,
    zarrGroup := [("data", ⟨[64, 64, 64]⟩)],
    baseVoxelSize := 10, pyId := 22 }

/-- A multiscale segmentation with members named 0 and 1. -/
def segMulti : Segmentation :=
  { name := "ribosome", userId := "carol", sessionId := "3",
    isMultilabel := false,
    zarrGroup := [("0", ⟨[80, 80, 80]⟩), ("1", ⟨[40, 40, 40]⟩)],
    baseVoxelSize := 10, pyId := 23 }

theorem claim_C4_amended_witness :
    (∃ r, (load_segmentation_worker segDataOnly 3).result = .ok r ∧
      segDataOnly.zarrGroup.member "data" = some r.data ∧
      r.resolutionLevel = 0 ∧
      r.voxelSize = List.replicate 3 segDataOnly.baseVoxelSize ∧
      (∀ req2 : Int, load_segmentation_worker segDataOnly req2 =
        load_segmentation_worker segDataOnly 3)) ∧
    (∃ r k, (load_segmentation_worker segMulti 5).result = .ok r ∧
      pyListGet (scaleLevels segMulti.zarrGroup)
        (effectiveLevel (scaleLevels segMulti.zarrGroup).length 5) = some k ∧
      segMulti.zarrGroup.member k = some r.data ∧
      r.resolutionLevel = min 5 (((scaleLevels segMulti.zarrGroup).length : Int) - 1) ∧
      r.voxelSize = List.replicate 3 (segMulti.baseVoxelSize * pyPow2 r.resolutionLevel)) ∧
    (∃ r, (load_segmentation_worker segTwoLevels 1).result = .ok r ∧
      r.data = ⟨[50, 50, 50]⟩ ∧
      (pyIsDigit "1" = true → r.resolutionLevel = 1 ∧
        r.voxelSize = List.replicate 3 (segTwoLevels.baseVoxelSize * pyPow2 1)) ∧
      (pyIsDigit "1" = false → r.resolutionLevel = 0 ∧
        r.voxelSize = List.replicate 3 segTwoLevels.baseVoxelSize)) :=
  ⟨(claim_C4_amended segDataOnly 3).1 (by decide),
   (claim_C4_amended segMulti 5).2.1 (by decide) (by decide) (by decide),
   (claim_C4_amended segTwoLevels 1).2.2 (by decide) (by decide)
     "1" ⟨[50, 50, 50]⟩ [("2", ⟨[25, 25, 25]⟩)] rfl⟩

/-! ## Expansion workers and user/session grouping (claims C6, C7) -/

/-- A pick-set entity: author and session ids, the picked object's name,
and the CPython object id. -/
structure Pick where
  userId : String
  sessionId : String
  objectName : String
  pyId : Nat
deriving DecidableEq, Repr

/-- A voxel-spacing entity: the rendered voxel size (as it appears in
labels and operation ids), the owning run's name, its tomograms, the
segmentations run.get_segmentations(voxel_size=...) returns for it, and
the CPython object id. -/
structure VoxelSpacing where
  voxelSizeStr : String
  runName : String
  tomograms : List Tomogram
  segmentations : List Segmentation
  pyId : Nat
deriving DecidableEq

/-- A run entity: its name, voxel spacings, pick-sets, CPython id. -/
structure Run where
  name : String
  voxelSpacings : List VoxelSpacing
  picks : List Pick
  pyId : Nat
deriving DecidableEq

/-- A nested insertion-ordered dict: user id to session id to items. -/
def UserSessionMap (σ : Type) : Type := List (String × List (String × List σ))

instance {σ : Type} [DecidableEq σ] : DecidableEq (UserSessionMap σ) :=
  inferInstanceAs (DecidableEq (List (String × List (String × List σ))))

/-- First-match association lookup, modelling Python dict access. -/
def assoc {β : Type} (k : String) : List (String × β) → Option β
  | [] => none
  | (k', v) :: rest => if k' = k then some v else assoc k rest

/-- Append an item under a session key, inserting the key at the end of
the dict when absent (Python dict insertion-order semantics). -/
def addToSessions {σ : Type} (s : String) (x : σ) :
    List (String × List σ) → List (String × List σ)
  | [] => [(s, [x])]
  | (s', xs) :: rest =>
    if s' = s then (s', xs ++ [x]) :: rest else (s', xs) :: addToSessions s x rest

/-- Append an item under a user key and then its session key. -/
def addToUsers {σ : Type} (u s : String) (x : σ) :
    List (String × List (String × List σ)) → List (String × List (String × List σ))
  | [] => [(u, [(s, [x])])]
  | (u', m) :: rest =>
    if u' = u then (u', addToSessions s x m) :: rest else (u', m) :: addToUsers u s x rest

/-- The dict-building loop shared by expand_run_worker (async_loaders.py
lines 176-183) and group_segmentations_by_user_session (tree_widget.py
lines 231-248): fold the items, keying by user id then session id. -/
def groupByUserSession {σ : Type} (userOf sessOf : σ → String) (xs : List σ) :
    UserSessionMap σ :=
  xs.foldl (fun acc x => addToUsers (userOf x) (sessOf x) x acc) []

/-- The items grouped under a (user, session) pair; empty when absent. -/
def getGroup {σ : Type} (m : UserSessionMap σ) (u s : String) : List σ :=
  (assoc s ((assoc u m).getD [])).getD []

theorem assoc_addToSessions {σ : Type} (s' s : String) (x : σ)
    (m : List (String × List σ)) :
    assoc s (addToSessions s' x m) =
      if s' = s then some (((assoc s m).getD []) ++ [x]) else assoc s m := by
  induction m with
  | nil =>
    by_cases hs : s' = s <;> simp [addToSessions, assoc, hs]
  | cons p rest ih =>
    obtain ⟨s'', xs⟩ := p
    by_cases h1 : s'' = s'
    · subst h1
      by_cases hs : s'' = s
      · subst hs
        simp [addToSessions, assoc]
      · simp [addToSessions, assoc, hs]
    · by_cases hs2 : s'' = s
      · subst hs2
        have hne : ¬ s' = s'' := fun h => h1 h.symm
        simp [addToSessions, assoc, h1, hne, ih]
      · simp [addToSessions, assoc, h1, hs2, ih]

theorem assoc_addToUsers {σ : Type} (u' u s' : String) (x : σ)
    (m : List (String × List (String × List σ))) :
    assoc u (addToUsers u' s' x m) =
      if u' = u then some (addToSessions s' x ((assoc u m).getD [])) else assoc u m := by
  induction m with
  | nil =>
    by_cases hu : u' = u <;> simp [addToUsers, assoc, addToSessions, hu]
  | cons p rest ih =>
    obtain ⟨u'', mm⟩ := p
    by_cases h1 : u'' = u'
    · subst h1
      by_cases hu : u'' = u
      · subst hu
        simp [addToUsers, assoc]
      · simp [addToUsers, assoc, hu]
    · by_cases hu2 : u'' = u
      · subst hu2
        have hne : ¬ u' = u'' := fun h => h1 h.symm
        simp [addToUsers, assoc, h1, hne, ih]
      · simp [addToUsers, assoc, h1, hu2, ih]

theorem getGroup_addToUsers {σ : Type} (u' s' u s : String) (x : σ)
    (m : UserSessionMap σ) :
    getGroup (addToUsers u' s' x m) u s =
      getGroup m u s ++ (if u' = u ∧ s' = s then [x] else []) := by
  unfold getGroup
  rw [assoc_addToUsers]
  by_cases hu : u' = u
  · rw [if_pos hu]
    simp only [Option.getD_some]
    rw [assoc_addToSessions]
    by_cases hs : s' = s
    · simp [hu, hs]
    · simp [hu, hs]
  · rw [if_neg hu]
    simp [hu]

theorem getGroup_groupByUserSession_aux {σ : Type} (userOf sessOf : σ → String)
    (u s : String) (xs : List σ) :
    ∀ acc : UserSessionMap σ,
      getGroup (xs.foldl (fun acc x => addToUsers (userOf x) (sessOf x) x acc) acc) u s =
        getGroup acc u s ++
          xs.filter (fun x => decide (userOf x = u ∧ sessOf x = s)) := by
  induction xs with
  | nil => intro acc; simp
  | cons x xs ih =>
    intro acc
    rw [List.foldl_cons, ih, getGroup_addToUsers]
    by_cases h : userOf x = u ∧ sessOf x = s
    · simp [List.filter_cons, h]
    · simp [List.filter_cons, h]

/-- The grouping loop groups exactly: the bucket of any (user, session)
pair is the sub-list of items carrying those ids, in encounter order. -/
theorem getGroup_groupByUserSession {σ : Type} (userOf sessOf : σ → String)
    (u s : String) (xs : List σ) :
    getGroup (groupByUserSession userOf sessOf xs) u s =
      xs.filter (fun x => decide (userOf x = u ∧ sessOf x = s)) := by
  unfold groupByUserSession
  rw [getGroup_groupByUserSession_aux]
  simp [getGroup, assoc]

/-- expand_voxel_spacing_worker's result dict (async_loaders.py lines
199-226): the voxel spacing, its tomograms, and its segmentations. -/
structure ExpandVoxelSpacingWorkerResult where
  voxelSpacing : VoxelSpacing
  tomograms : List Tomogram
  segmentations : List Segmentation
deriving DecidableEq

/-- expand_voxel_spacing_worker: fetch tomograms and segmentations. -/
def expand_voxel_spacing_worker (vs : VoxelSpacing) : ExpandVoxelSpacingWorkerResult :=
  { voxelSpacing := vs, tomograms := vs.tomograms, segmentations := vs.segmentations }

/-- group_segmentations_by_user_session (tree_widget.py lines 231-248). -/
def group_segmentations_by_user_session (segs : List Segmentation) :
    UserSessionMap Segmentation :=
  groupByUserSession Segmentation.userId Segmentation.sessionId segs

/-- The ExpandVoxelSpacingResult of the spec data model: tomograms plus
the segmentations-by-user-session map. -/
structure ExpandVoxelSpacingResult where
  tomograms : List Tomogram
  segmentationsByUserSession : UserSessionMap Segmentation

/-- The complete ExpandVoxelSpacing operation: the worker composed with
the grouping its consumer applies (tree_widget.py line 209). -/
def expandVoxelSpacingOperation (vs : VoxelSpacing) : ExpandVoxelSpacingResult :=
  { tomograms := (expand_voxel_spacing_worker vs).tomograms,
    segmentationsByUserSession :=
      group_segmentations_by_user_session (expand_voxel_spacing_worker vs).segmentations }

/-- The property asserted by claim C6. -/
def C6Property (vs : VoxelSpacing) : Prop :=
  (expandVoxelSpacingOperation vs).tomograms = vs.tomograms ∧
  ∀ u s, getGroup (expandVoxelSpacingOperation vs).segmentationsByUserSession u s =
    vs.segmentations.filter (fun g => decide (g.userId = u ∧ g.sessionId = s))

/-- C6: the ExpandVoxelSpacing operation yields the voxel spacing's
tomograms together with its segmentations grouped by (userId, sessionId):
every (user, session) bucket is exactly the segmentations carrying those
ids, in encounter order. -/
theorem claim_C6 (vs : VoxelSpacing) : C6Property vs :=
  ⟨rfl, fun u s => getGroup_groupByUserSession _ _ u s vs.segmentations⟩

/-- expand_run_worker's result dict (async_loaders.py lines 154-196). -/
structure ExpandRunWorkerResult where
  run : Run
  voxelSpacings : List VoxelSpacing
  picksData : UserSessionMap Pick
deriving DecidableEq

/-- expand_run_worker: fetch voxel spacings and picks, then group the
picks by user id and session id (async_loaders.py lines 176-183). -/
def expand_run_worker (r : Run) : ExpandRunWorkerResult :=
  { run := r, voxelSpacings := r.voxelSpacings,
    picksData := groupByUserSession Pick.userId Pick.sessionId r.picks }

def pickA1X : Pick := ⟨"A", "1", "X", 31⟩

def pickA1Y : Pick := ⟨"A", "1", "Y", 32⟩

def pickB2X : Pick := ⟨"B", "2", "X", 33⟩

/-- The run of the spec's end-to-end grouping scenario. -/
def runScenario : Run :=
  { name := "run1", voxelSpacings := [], picks := [pickA1X, pickA1Y, pickB2X], pyId := 34 }

/-- The property asserted by claim C7. -/
def C7Property : Prop :=
  (∀ (r : Run) (u s : String),
    getGroup (expand_run_worker r).picksData u s =
      r.picks.filter (fun p => decide (p.userId = u ∧ p.sessionId = s))) ∧
  (expand_run_worker runScenario).picksData =
    [("A", [("1", [pickA1X, pickA1Y])]), ("B", [("2", [pickB2X])])]

/-- C7: expand_run_worker groups the run's pick-sets into a nested map
keyed by user id then session id, preserving encounter order within each
bucket; on the spec's example picks it produces exactly the nested map
with A mapping 1 to X then Y and B mapping 2 to X. -/
theorem claim_C7 : C7Property :=
  ⟨fun r u s => getGroup_groupByUserSession _ _ u s r.picks, by decide⟩

/-! ## The Operation Tracker (claims C2, C8)

widget.py lines 229-253: a set of operation-id strings, a loading label,
and the loading-widget visibility, which acts as the aggregate busy flag.
Qt's setVisible fires a visibility change only when the flag actually
flips, so busyChanged emissions are modelled as changes of the flag. -/

/-- The tracker's state: active_operations, the loading-widget visibility
(the busy flag) and the loading label text. -/
structure TrackerState where
  activeOperations : Finset String
  visible : Bool
  label : String
deriving DecidableEq

/-- The state after setup_ui: empty set, hidden loading widget. -/
def initTracker : TrackerState :=
  { activeOperations := ∅, visible := false, label := "Loading..." }

/-- The add-operation method (widget.py lines 238-242): insert the id,
set the label, show the loading widget. -/
def add_operation (st : TrackerState) (operationId description : String) : TrackerState :=
  { activeOperations := insert operationId st.activeOperations,
    visible := true,
    label := description }

/-- The remove-operation method (widget.py lines 244-248): discard the
id; hide the loading widget when no operation remains. -/
def remove_operation (st : TrackerState) (operationId : String) : TrackerState :=
  let ops := st.activeOperations.erase operationId
  { activeOperations := ops,
    visible := if ops = ∅ then false else st.visible,
    label := st.label }

/-- One tracker call. -/
inductive TrackerEvent where
  | add (operationId description : String)
  | remove (operationId : String)
deriving DecidableEq

def trackerStep (st : TrackerState) : TrackerEvent → TrackerState
  | .add opId descr => add_operation st opId descr
  | .remove opId => remove_operation st opId

def runTracker (st : TrackerState) (evs : List TrackerEvent) : TrackerState :=
  evs.foldl trackerStep st

/-- The busyChanged emission of one call: some b when the visibility
flag flips to b, none when it is unchanged. -/
def stepEmission (st : TrackerState) (e : TrackerEvent) : Option Bool :=
  if (trackerStep st e).visible = st.visible then none
  else some (trackerStep st e).visible

/-- The emissions along a call sequence. -/
def runEmissions : TrackerState → List TrackerEvent → List (Option Bool)
  | _, [] => []
  | st, e :: es => stepEmission st e :: runEmissions (trackerStep st e) es

/-- The tracker invariant: busy iff some operation is active. -/
def trackerInv (st : TrackerState) : Prop :=
  st.visible = true ↔ st.activeOperations ≠ ∅

theorem trackerStep_inv {st : TrackerState} (h : trackerInv st) (e : TrackerEvent) :
    trackerInv (trackerStep st e) := by
  cases e with
  | add opId descr =>
    simp [trackerInv, trackerStep, add_operation, Finset.insert_ne_empty]
  | remove opId =>
    by_cases he : st.activeOperations.erase opId = ∅
    · simp [trackerInv, trackerStep, remove_operation, he]
    · have hOps : st.activeOperations ≠ ∅ := by
        intro hO
        exact he (by simp [hO])
      have hv : st.visible = true := h.mpr hOps
      simp [trackerInv, trackerStep, remove_operation, he, hv]

theorem runTracker_inv_aux {st : TrackerState} (h : trackerInv st)
    (evs : List TrackerEvent) : trackerInv (runTracker st evs) := by
  induction evs generalizing st with
  | nil => exact h
  | cons e es ih => exact ih (trackerStep_inv h e)

theorem runTracker_inv (evs : List TrackerEvent) :
    trackerInv (runTracker initTracker evs) :=
  runTracker_inv_aux (by simp [trackerInv, initTracker]) evs

/-- Characterisation of the busyChanged emission of a single call from
any invariant-respecting state: true fires exactly on the empty to
non-empty edge, false exactly on the non-empty to empty edge. -/
theorem stepEmission_spec (st : TrackerState) (e : TrackerEvent) (h : trackerInv st) :
    (stepEmission st e = some true ↔
      st.activeOperations = ∅ ∧ (trackerStep st e).activeOperations ≠ ∅) ∧
    (stepEmission st e = some false ↔
      st.activeOperations ≠ ∅ ∧ (trackerStep st e).activeOperations = ∅) := by
  cases e with
  | add opId descr =>
    by_cases hv : st.visible = true
    · have hOps : st.activeOperations ≠ ∅ := h.mp hv
      simp [stepEmission, trackerStep, add_operation, hv, hOps, Finset.insert_ne_empty]
    · have hv' : st.visible = false := by simpa using hv
      have hOps : st.activeOperations = ∅ := by
        by_contra hne
        exact hv (h.mpr hne)
      simp [stepEmission, trackerStep, add_operation, hv', hOps, Finset.insert_ne_empty]
  | remove opId =>
    by_cases he : st.activeOperations.erase opId = ∅
    · by_cases hv : st.visible = true
      · have hOps : st.activeOperations ≠ ∅ := h.mp hv
        simp [stepEmission, trackerStep, remove_operation, he, hv, hOps]
      · have hv' : st.visible = false := by simpa using hv
        have hOps : st.activeOperations = ∅ := by
          by_contra hne
          exact hv (h.mpr hne)
        simp [stepEmission, trackerStep, remove_operation, he, hv', hOps]
    · have hOps : st.activeOperations ≠ ∅ := by
        intro hO
        exact he (by simp [hO])
      have hv : st.visible = true := h.mpr hOps
      simp [stepEmission, trackerStep, remove_operation, he, hv, hOps]

/-- The add events of a list of operation ids (empty descriptions). -/
def addsEvents (l : List String) : List TrackerEvent :=
  l.map (fun i => TrackerEvent.add i "")

/-- The remove events of a list of operation ids. -/
def removesEvents (m : List String) : List TrackerEvent :=
  m.map TrackerEvent.remove

theorem runEmissions_append (st : TrackerState) (l1 l2 : List TrackerEvent) :
    runEmissions st (l1 ++ l2) =
      runEmissions st l1 ++ runEmissions (runTracker st l1) l2 := by
  induction l1 generalizing st with
  | nil => rfl
  | cons e es ih =>
    show stepEmission st e :: runEmissions (trackerStep st e) (es ++ l2) = _
    rw [ih]
    rfl

theorem runTracker_adds_ops (st : TrackerState) (l : List String) :
    (runTracker st (addsEvents l)).activeOperations =
      st.activeOperations ∪ l.toFinset := by
  induction l generalizing st with
  | nil => simp [runTracker, addsEvents]
  | cons i is ih =>
    simp only [addsEvents, List.map_cons, runTracker, List.foldl_cons] at ih ⊢
    rw [ih]
    simp [trackerStep, add_operation, Finset.insert_union, Finset.union_insert]

theorem runEmissions_adds_of_busy (l : List String) :
    ∀ st : TrackerState, st.visible = true →
      runEmissions st (addsEvents l) = List.replicate l.length none := by
  induction l with
  | nil => intro st _; rfl
  | cons i is ih =>
    intro st hv
    have h1 : stepEmission st (TrackerEvent.add i "") = none := by
      simp [stepEmission, trackerStep, add_operation, hv]
    show stepEmission st (TrackerEvent.add i "") ::
      runEmissions (trackerStep st (TrackerEvent.add i "")) (addsEvents is) = _
    rw [h1, ih _ rfl, List.length_cons, List.replicate_succ]

theorem runEmissions_adds_from_init (l : List String) (h : l ≠ []) :
    runEmissions initTracker (addsEvents l) =
      some true :: List.replicate (l.length - 1) none := by
  cases l with
  | nil => exact absurd rfl h
  | cons i is =>
    have h1 : stepEmission initTracker (TrackerEvent.add i "") = some true := by
      simp [stepEmission, trackerStep, add_operation, initTracker]
    show stepEmission initTracker (TrackerEvent.add i "") ::
      runEmissions (trackerStep initTracker (TrackerEvent.add i "")) (addsEvents is) = _
    rw [h1, runEmissions_adds_of_busy is _ rfl, List.length_cons, Nat.add_sub_cancel]

theorem runEmissions_removes (m : List String) :
    ∀ st : TrackerState, m ≠ [] → m.Nodup →
      st.activeOperations = m.toFinset → st.visible = true →
      runEmissions st (removesEvents m) =
        List.replicate (m.length - 1) none ++ [some false] ∧
      (runTracker st (removesEvents m)).activeOperations = ∅ := by
  induction m with
  | nil => intro st h; exact absurd rfl h
  | cons i is ih =>
    intro st _ hnd hops hv
    have hi : i ∉ is := (List.nodup_cons.mp hnd).1
    have herase : st.activeOperations.erase i = is.toFinset := by
      rw [hops, List.toFinset_cons]
      exact Finset.erase_insert (by simpa using hi)
    by_cases hisnil : is = []
    · subst hisnil
      have hops1 : st.activeOperations = {i} := by simpa using hops
      refine ⟨?_, ?_⟩
      · simp [removesEvents, runEmissions, stepEmission, trackerStep,
          remove_operation, hops1, hv, Finset.erase_singleton]
      · simp [removesEvents, runTracker, trackerStep, remove_operation, hops1,
          Finset.erase_singleton]
    · have hisf : is.toFinset ≠ ∅ := by
        simpa [List.toFinset_eq_empty_iff] using hisnil
      have hstep : (trackerStep st (TrackerEvent.remove i)).activeOperations
          = is.toFinset := herase
      have hvis' : (trackerStep st (TrackerEvent.remove i)).visible = true := by
        show (if st.activeOperations.erase i = ∅ then false else st.visible) = true
        rw [herase, if_neg hisf]
        exact hv
      have hemit : stepEmission st (TrackerEvent.remove i) = none := by
        simp [stepEmission, hvis', hv]
      obtain ⟨he, ho⟩ := ih (trackerStep st (TrackerEvent.remove i)) hisnil
        (List.nodup_cons.mp hnd).2 hstep hvis'
      refine ⟨?_, ?_⟩
      · show stepEmission st (TrackerEvent.remove i) ::
          runEmissions (trackerStep st (TrackerEvent.remove i)) (removesEvents is) = _
        rw [hemit, he]
        have hlen : is.length - 1 + 1 = is.length :=
          Nat.succ_pred_eq_of_pos (List.length_pos.mpr hisnil)
        rw [show (i :: is).length - 1 = is.length from by simp]
        rw [← hlen, List.replicate_succ]
        simp
      · exact ho

/-- The property asserted by claim C2. -/
def C2Property : Prop :=
  (∀ evs : List TrackerEvent,
    ((runTracker initTracker evs).visible = true ↔
      (runTracker initTracker evs).activeOperations ≠ ∅)) ∧
  (∀ (st : TrackerState) (e : TrackerEvent), trackerInv st →
    (stepEmission st e = some true ↔
      st.activeOperations = ∅ ∧ (trackerStep st e).activeOperations ≠ ∅) ∧
    (stepEmission st e = some false ↔
      st.activeOperations ≠ ∅ ∧ (trackerStep st e).activeOperations = ∅)) ∧
  (∀ l m : List String, l ≠ [] → l.Nodup → m.Nodup → m.toFinset = l.toFinset →
    runEmissions initTracker (addsEvents l ++ removesEvents m) =
      some true :: (List.replicate (l.length - 1) none ++
        (List.replicate (m.length - 1) none ++ [some false])) ∧
    (runTracker initTracker (addsEvents l ++ removesEvents m)).activeOperations = ∅)

/-- C2: the loading-widget visibility is true iff the operation-id set is
non-empty after any call sequence; a busyChanged(true) fires exactly on
the empty to non-empty edge and a busyChanged(false) exactly on the
non-empty to empty edge; and for N concurrent operations (N distinct adds
followed by their removes in any order) exactly one busyChanged(false)
fires, at the last remove, never while an id remains. -/
theorem claim_C2 : C2Property := by
  refine ⟨fun evs => runTracker_inv evs, fun st e h => stepEmission_spec st e h, ?_⟩
  intro l m hl hndl hndm hfin
  have hlf : l.toFinset ≠ ∅ := by
    simpa [List.toFinset_eq_empty_iff] using hl
  have hm : m ≠ [] := by
    intro hmnil
    rw [hmnil] at hfin
    exact hlf (by simpa using hfin.symm)
  have hops1 : (runTracker initTracker (addsEvents l)).activeOperations = m.toFinset := by
    rw [runTracker_adds_ops, hfin]
    simp [initTracker]
  have hinv1 : trackerInv (runTracker initTracker (addsEvents l)) :=
    runTracker_inv_aux (by simp [trackerInv, initTracker]) _
  have hvis1 : (runTracker initTracker (addsEvents l)).visible = true := by
    apply hinv1.mpr
    rw [hops1, hfin]
    exact hlf
  obtain ⟨hemit, hfinal⟩ := runEmissions_removes m _ hm hndm hops1 hvis1
  refine ⟨?_, ?_⟩
  · rw [runEmissions_append, runEmissions_adds_from_init l hl, hemit]
    simp
  · rw [runTracker]
    rw [List.foldl_append]
    exact hfinal

theorem claim_C2_witness :
    (trackerInv initTracker ∧
      ((stepEmission initTracker (TrackerEvent.add "a" "d") = some true ↔
        initTracker.activeOperations = ∅ ∧
        (trackerStep initTracker (TrackerEvent.add "a" "d")).activeOperations ≠ ∅) ∧
       (stepEmission initTracker (TrackerEvent.add "a" "d") = some false ↔
        initTracker.activeOperations ≠ ∅ ∧
        (trackerStep initTracker (TrackerEvent.add "a" "d")).activeOperations = ∅))) ∧
    (["a", "b"] ≠ ([] : List String) ∧ List.Nodup ["a", "b"] ∧
      List.Nodup ["b", "a"] ∧
      List.toFinset ["b", "a"] = List.toFinset ["a", "b"] ∧
      runEmissions initTracker (addsEvents ["a", "b"] ++ removesEvents ["b", "a"]) =
        some true :: (List.replicate 1 none ++ (List.replicate 1 none ++ [some false])) ∧
      (runTracker initTracker
        (addsEvents ["a", "b"] ++ removesEvents ["b", "a"])).activeOperations = ∅) :=
  ⟨⟨by simp [trackerInv, initTracker],
    claim_C2.2.1 initTracker (TrackerEvent.add "a" "d") (by simp [trackerInv, initTracker])⟩,
   by decide, by decide, by decide, by decide,
   (claim_C2.2.2 ["a", "b"] ["b", "a"] (by decide) (by decide) (by decide) (by decide)).1,
   (claim_C2.2.2 ["a", "b"] ["b", "a"] (by decide) (by decide) (by decide) (by decide)).2⟩

/-! ## The task registry and the submit paths (claims C1, C8, C9, C10)

widget.py lines 92-96 and 583-699, tree_widget.py lines 87-187: the
loading-workers and expansion-workers dicts keyed by the live entity
objects play the role of the task registry; submitting a load or expand
checks them for an in-flight entry before starting a worker. CPython ids
(pyId) model object identity: distinct concurrently live objects have
distinct ids, and the dicts hash by object identity. -/

/-- A key of the loading-workers dict: a tomogram or a segmentation. -/
inductive LoadKey where
  | tomo (t : Tomogram)
  | seg (s : Segmentation)
deriving DecidableEq

/-- A key of the expansion-workers dict: a run or a voxel spacing. -/
inductive ExpandKey where
  | run (r : Run)
  | vs (v : VoxelSpacing)
deriving DecidableEq

/-- A tree item; only its child count matters to the submit guards. -/
structure Item where
  childCount : Nat
deriving DecidableEq, Repr

/-- The mutable widget state the submit paths read and write. -/
structure WidgetState where
  loadingWorkers : List LoadKey
  loadingItems : List (LoadKey × Option Item)
  expansionWorkers : List ExpandKey
  expansionItems : List (ExpandKey × Item)
  tracker : TrackerState
  infoLabel : String
deriving DecidableEq

/-- The widget state right after construction: empty dicts. -/
def initWidgetState : WidgetState :=
  { loadingWorkers := [], loadingItems := [], expansionWorkers := [],
    expansionItems := [], tracker := initTracker,
    infoLabel := "Select a pick to get started" }

/-- The externally visible effects of one submit call: whether a worker
was started, the warnings logged, and whether a tree loading indicator
was installed. -/
structure SubmitEffects where
  workerStarted : Bool
  warnings : List String
  indicatorAdded : Bool
deriving DecidableEq, Repr

/-- The effects of a rejected (no-op) submit. -/
def noSubmitEffects : SubmitEffects :=
  { workerStarted := false, warnings := [], indicatorAdded := false }

/-- The operation id of widget.py line 603. -/
def load_tomogram_operation_id (t : Tomogram) : String :=
  "load_tomogram_" ++ t.tomoType ++ "_" ++ pyNatStr t.pyId

/-- The operation id of widget.py line 680. -/
def load_segmentation_operation_id (s : Segmentation) : String :=
  "load_segmentation_" ++ s.name ++ "_" ++ pyNatStr s.pyId

/-- The operation id of widget.py line 527 / tree_widget.py line 103. -/
def expand_run_operation_id (r : Run) : String :=
  "expand_run_" ++ r.name

/-- The operation id of tree_widget.py line 172. -/
def expand_voxel_spacing_operation_id (v : VoxelSpacing) : String :=
  "expand_voxel_spacing_" ++ v.voxelSizeStr

/-- load_tomogram_async (widget.py lines 583-622): reject with a logged
warning when the tomogram is already loading; otherwise install the
loading indicator (when a tree item is given), record the item, add the
operation id, start the worker and register it. -/
def load_tomogram_async (st : WidgetState) (t : Tomogram) (item : Option Item) :
    WidgetState × SubmitEffects :=
  if LoadKey.tomo t ∈ st.loadingWorkers then
    (st, { workerStarted := false,
           warnings := ["Tomogram " ++ t.tomoType ++ " already loading, skipping"],
           indicatorAdded := false })
  else
    ({ st with
        loadingItems := st.loadingItems ++ [(LoadKey.tomo t, item)],
        tracker := add_operation st.tracker (load_tomogram_operation_id t)
          ("Loading tomogram: " ++ t.tomoType ++ "..."),
        loadingWorkers := st.loadingWorkers ++ [LoadKey.tomo t],
        infoLabel := "Loading tomogram: " ++ t.tomoType ++ "..." },
     { workerStarted := true, warnings := [], indicatorAdded := item.isSome })

/-- load_segmentation_async (widget.py lines 665-699): same shape, with
an unconditional tree loading indicator. -/
def load_segmentation_async (st : WidgetState) (s : Segmentation) (item : Item) :
    WidgetState × SubmitEffects :=
  if LoadKey.seg s ∈ st.loadingWorkers then
    (st, { workerStarted := false,
           warnings := ["Segmentation " ++ s.name ++ " already loading, skipping"],
           indicatorAdded := false })
  else
    ({ st with
        loadingItems := st.loadingItems ++ [(LoadKey.seg s, some item)],
        tracker := add_operation st.tracker (load_segmentation_operation_id s)
          ("Loading segmentation: " ++ s.name ++ "..."),
        loadingWorkers := st.loadingWorkers ++ [LoadKey.seg s],
        infoLabel := "Loading segmentation: " ++ s.name ++ "..." },
     { workerStarted := true, warnings := [], indicatorAdded := true })

/-- expand_run_async (widget.py lines 514-542, tree_widget.py lines
92-118): silently skip when the item already has children or the run is
already expanding; otherwise install indicators, add the operation id,
start and register the worker. -/
def expand_run_async (st : WidgetState) (item : Item) (r : Run) :
    WidgetState × SubmitEffects :=
  if 0 < item.childCount ∨ ExpandKey.run r ∈ st.expansionWorkers then
    (st, noSubmitEffects)
  else
    ({ st with
        expansionItems := st.expansionItems ++ [(ExpandKey.run r, item)],
        tracker := add_operation st.tracker (expand_run_operation_id r)
          ("Expanding run: " ++ r.name ++ "..."),
        expansionWorkers := st.expansionWorkers ++ [ExpandKey.run r],
        infoLabel := "Expanding run: " ++ r.name ++ "..." },
     { workerStarted := true, warnings := [], indicatorAdded := true })

/-- expand_voxel_spacing_async (tree_widget.py lines 157-187). -/
def expand_voxel_spacing_async (st : WidgetState) (item : Item) (v : VoxelSpacing) :
    WidgetState × SubmitEffects :=
  if 0 < item.childCount ∨ ExpandKey.vs v ∈ st.expansionWorkers then
    (st, noSubmitEffects)
  else
    ({ st with
        expansionItems := st.expansionItems ++ [(ExpandKey.vs v, item)],
        tracker := add_operation st.tracker (expand_voxel_spacing_operation_id v)
          ("Expanding voxel spacing: " ++ v.voxelSizeStr ++ "..."),
        expansionWorkers := st.expansionWorkers ++ [ExpandKey.vs v],
        infoLabel := "Expanding voxel spacing: " ++ v.voxelSizeStr ++ "..." },
     { workerStarted := true, warnings := [], indicatorAdded := true })

/-- lazy_load_voxel_spacing (tree_widget.py lines 87-90): expand only
when the item has no children yet. -/
def lazy_load_voxel_spacing (st : WidgetState) (item : Item) (v : VoxelSpacing) :
    WidgetState × SubmitEffects :=
  if item.childCount = 0 then expand_voxel_spacing_async st item v
  else (st, noSubmitEffects)

theorem load_tomogram_async_dup (st : WidgetState) (t : Tomogram) (item : Option Item)
    (h : LoadKey.tomo t ∈ st.loadingWorkers) :
    load_tomogram_async st t item =
      (st, { workerStarted := false,
             warnings := ["Tomogram " ++ t.tomoType ++ " already loading, skipping"],
             indicatorAdded := false }) := by
  unfold load_tomogram_async
  rw [if_pos h]

theorem load_segmentation_async_dup (st : WidgetState) (s : Segmentation) (item : Item)
    (h : LoadKey.seg s ∈ st.loadingWorkers) :
    load_segmentation_async st s item =
      (st, { workerStarted := false,
             warnings := ["Segmentation " ++ s.name ++ " already loading, skipping"],
             indicatorAdded := false }) := by
  unfold load_segmentation_async
  rw [if_pos h]

theorem expand_run_async_dup (st : WidgetState) (item : Item) (r : Run)
    (h : ExpandKey.run r ∈ st.expansionWorkers) :
    expand_run_async st item r = (st, noSubmitEffects) := by
  unfold expand_run_async
  rw [if_pos (Or.inr h)]

theorem expand_voxel_spacing_async_dup (st : WidgetState) (item : Item) (v : VoxelSpacing)
    (h : ExpandKey.vs v ∈ st.expansionWorkers) :
    expand_voxel_spacing_async st item v = (st, noSubmitEffects) := by
  unfold expand_voxel_spacing_async
  rw [if_pos (Or.inr h)]

/-- The statement of claim C1 as frozen: any duplicate submit while a
task for the same entity is in flight is a state-preserving no-op that
starts no worker AND logs a warning. -/
def C1ClaimStatement : Prop :=
  (∀ (st : WidgetState) (t : Tomogram) (item : Option Item),
    LoadKey.tomo t ∈ st.loadingWorkers →
      (load_tomogram_async st t item).1 = st ∧
      (load_tomogram_async st t item).2.workerStarted = false ∧
      (load_tomogram_async st t item).2.warnings ≠ []) ∧
  (∀ (st : WidgetState) (s : Segmentation) (item : Item),
    LoadKey.seg s ∈ st.loadingWorkers →
      (load_segmentation_async st s item).1 = st ∧
      (load_segmentation_async st s item).2.workerStarted = false ∧
      (load_segmentation_async st s item).2.warnings ≠ []) ∧
  (∀ (st : WidgetState) (item : Item) (r : Run),
    ExpandKey.run r ∈ st.expansionWorkers →
      (expand_run_async st item r).1 = st ∧
      (expand_run_async st item r).2.workerStarted = false ∧
      (expand_run_async st item r).2.warnings ≠ []) ∧
  (∀ (st : WidgetState) (item : Item) (v : VoxelSpacing),
    ExpandKey.vs v ∈ st.expansionWorkers →
      (expand_voxel_spacing_async st item v).1 = st ∧
      (expand_voxel_spacing_async st item v).2.workerStarted = false ∧
      (expand_voxel_spacing_async st item v).2.warnings ≠ [])

/-- A state in which an expansion of runScenario is in flight. -/
def stRunInFlight : WidgetState :=
  { initWidgetState with expansionWorkers := [ExpandKey.run runScenario] }

/-- C1 fails on the code as frozen: a duplicate expand-run submit is
rejected silently, with no warning logged (tree_widget.py line 96 is a
bare return), so the with-a-warning part of the claim is false. -/
theorem claim_C1_counterexample : ¬ C1ClaimStatement := by
  intro h
  have h3 := h.2.2.1 stRunInFlight ⟨0⟩ runScenario (by decide)
  exact h3.2.2 (by decide)

/-- The property claim C1 holds after amendment: duplicates are always
rejected as state-preserving no-ops and the registry count for the key
stays 1; load duplicates log a warning while expand duplicates are
silent. -/
def C1AmendedProperty : Prop :=
  (∀ (st : WidgetState) (t : Tomogram) (item : Option Item),
    LoadKey.tomo t ∈ st.loadingWorkers →
      load_tomogram_async st t item =
        (st, { workerStarted := false,
               warnings := ["Tomogram " ++ t.tomoType ++ " already loading, skipping"],
               indicatorAdded := false })) ∧
  (∀ (st : WidgetState) (s : Segmentation) (item : Item),
    LoadKey.seg s ∈ st.loadingWorkers →
      load_segmentation_async st s item =
        (st, { workerStarted := false,
               warnings := ["Segmentation " ++ s.name ++ " already loading, skipping"],
               indicatorAdded := false })) ∧
  (∀ (st : WidgetState) (item : Item) (r : Run),
    ExpandKey.run r ∈ st.expansionWorkers →
      expand_run_async st item r = (st, noSubmitEffects)) ∧
  (∀ (st : WidgetState) (item : Item) (v : VoxelSpacing),
    ExpandKey.vs v ∈ st.expansionWorkers →
      expand_voxel_spacing_async st item v = (st, noSubmitEffects)) ∧
  (∀ (st : WidgetState) (t : Tomogram) (item item2 : Option Item),
    LoadKey.tomo t ∉ st.loadingWorkers →
      ((load_tomogram_async st t item).1.loadingWorkers.count (LoadKey.tomo t) = 1 ∧
       (load_tomogram_async (load_tomogram_async st t item).1 t item2).1 =
         (load_tomogram_async st t item).1 ∧
       (load_tomogram_async (load_tomogram_async st t item).1 t item2).2.workerStarted
         = false)) ∧
  (∀ (st : WidgetState) (item item2 : Item) (r : Run),
    item.childCount = 0 → ExpandKey.run r ∉ st.expansionWorkers →
      ((expand_run_async st item r).1.expansionWorkers.count (ExpandKey.run r) = 1 ∧
       (expand_run_async (expand_run_async st item r).1 item2 r).1 =
         (expand_run_async st item r).1 ∧
       (expand_run_async (expand_run_async st item r).1 item2 r).2.workerStarted
         = false))

/-- C1 as amended: while a load or expand for the same entity is in
flight, a second submit is a no-op (state unchanged, no worker, no
indicator) — with a logged warning for loads, silently for expands — so
the registry count for that key stays 1. -/
theorem claim_C1_amended : C1AmendedProperty := by
  refine ⟨load_tomogram_async_dup, load_segmentation_async_dup,
    expand_run_async_dup, expand_voxel_spacing_async_dup, ?_, ?_⟩
  · intro st t item item2 h
    have h1 : load_tomogram_async st t item =
        ({ st with
            loadingItems := st.loadingItems ++ [(LoadKey.tomo t, item)],
            tracker := add_operation st.tracker (load_tomogram_operation_id t)
              ("Loading tomogram: " ++ t.tomoType ++ "..."),
            loadingWorkers := st.loadingWorkers ++ [LoadKey.tomo t],
            infoLabel := "Loading tomogram: " ++ t.tomoType ++ "..." },
         { workerStarted := true, warnings := [], indicatorAdded := item.isSome }) := by
      unfold load_tomogram_async
      rw [if_neg h]
    have hmem : LoadKey.tomo t ∈ (load_tomogram_async st t item).1.loadingWorkers := by
      rw [h1]
      simp
    have hdup := load_tomogram_async_dup (load_tomogram_async st t item).1 t item2 hmem
    refine ⟨?_, by rw [hdup], by rw [hdup]⟩
    rw [h1]
    simp [List.count_append, List.count_eq_zero_of_not_mem h]
  · intro st item item2 r hc h
    have hguard : ¬ (0 < item.childCount ∨ ExpandKey.run r ∈ st.expansionWorkers) := by
      rw [hc]
      simp [h]
    have h1 : expand_run_async st item r =
        ({ st with
            expansionItems := st.expansionItems ++ [(ExpandKey.run r, item)],
            tracker := add_operation st.tracker (expand_run_operation_id r)
              ("Expanding run: " ++ r.name ++ "..."),
            expansionWorkers := st.expansionWorkers ++ [ExpandKey.run r],
            infoLabel := "Expanding run: " ++ r.name ++ "..." },
         { workerStarted := true, warnings := [], indicatorAdded := true }) := by
      unfold expand_run_async
      rw [if_neg hguard]
    have hmem : ExpandKey.run r ∈ (expand_run_async st item r).1.expansionWorkers := by
      rw [h1]
      simp
    have hdup := expand_run_async_dup (expand_run_async st item r).1 item2 r hmem
    refine ⟨?_, by rw [hdup], by rw [hdup]; rfl⟩
    rw [h1]
    simp [List.count_append, List.count_eq_zero_of_not_mem h]

/-- A state in which a load of tomoThree is in flight. -/
def stTomoInFlight : WidgetState :=
  { initWidgetState with loadingWorkers := [LoadKey.tomo tomoThree] }

theorem claim_C1_amended_witness :
    (LoadKey.tomo tomoThree ∈ stTomoInFlight.loadingWorkers ∧
      load_tomogram_async stTomoInFlight tomoThree none =
        (stTomoInFlight,
         { workerStarted := false,
           warnings := ["Tomogram " ++ tomoThree.tomoType ++ " already loading, skipping"],
           indicatorAdded := false })) ∧
    (ExpandKey.run runScenario ∈ stRunInFlight.expansionWorkers ∧
      expand_run_async stRunInFlight ⟨0⟩ runScenario = (stRunInFlight, noSubmitEffects)) ∧
    (LoadKey.tomo tomoThree ∉ initWidgetState.loadingWorkers ∧
      (load_tomogram_async initWidgetState tomoThree none).1.loadingWorkers.count
        (LoadKey.tomo tomoThree) = 1 ∧
      (load_tomogram_async (load_tomogram_async initWidgetState tomoThree none).1
        tomoThree none).1 = (load_tomogram_async initWidgetState tomoThree none).1 ∧
      (load_tomogram_async (load_tomogram_async initWidgetState tomoThree none).1
        tomoThree none).2.workerStarted = false) :=
  ⟨⟨by simp [stTomoInFlight],
    claim_C1_amended.1 stTomoInFlight tomoThree none (by simp [stTomoInFlight])⟩,
   ⟨by simp [stRunInFlight],
    claim_C1_amended.2.2.1 stRunInFlight ⟨0⟩ runScenario (by simp [stRunInFlight])⟩,
   ⟨by simp [initWidgetState],
    claim_C1_amended.2.2.2.2.1 initWidgetState tomoThree none none
      (by simp [initWidgetState])⟩⟩

/-- The property asserted by claim C10. -/
def C10Property : Prop :=
  ∀ (st : WidgetState) (item : Item) (r : Run) (v : VoxelSpacing),
    0 < item.childCount →
      expand_run_async st item r = (st, noSubmitEffects) ∧
      expand_voxel_spacing_async st item v = (st, noSubmitEffects) ∧
      lazy_load_voxel_spacing st item v = (st, noSubmitEffects)

/-- C10: an expand-run or expand-voxel-spacing submit whose tree item
already has a child is a complete no-op even with nothing in flight: no
worker, no indicator, no operation id, registries unchanged. -/
theorem claim_C10 : C10Property := by
  intro st item r v hc
  refine ⟨?_, ?_, ?_⟩
  · unfold expand_run_async
    rw [if_pos (Or.inl hc)]
  · unfold expand_voxel_spacing_async
    rw [if_pos (Or.inl hc)]
  · unfold lazy_load_voxel_spacing
    rw [if_neg (by omega)]

/-- A voxel spacing rendered at size 10.0 inside run1. -/
def vsTenA : VoxelSpacing :=
  { voxelSizeStr := "10.0", runName := "run1",
    tomograms := [], segmentations := [], pyId := 41 }

theorem claim_C10_witness :
    0 < (⟨2⟩ : Item).childCount ∧
    (expand_run_async initWidgetState ⟨2⟩ runScenario =
      (initWidgetState, noSubmitEffects) ∧
     expand_voxel_spacing_async initWidgetState ⟨2⟩ vsTenA =
      (initWidgetState, noSubmitEffects) ∧
     lazy_load_voxel_spacing initWidgetState ⟨2⟩ vsTenA =
      (initWidgetState, noSubmitEffects)) :=
  ⟨by decide, claim_C10 initWidgetState ⟨2⟩ runScenario vsTenA (by decide)⟩

/-! ## Operation-id uniqueness (claim C9) -/

theorem pyCharVal_pyDigitChar : ∀ d, d < 10 → pyCharVal (pyDigitChar d) = d := by
  decide

theorem map_pyCharVal_map_pyDigitChar (l : List Nat) (hl : ∀ d ∈ l, d < 10) :
    List.map pyCharVal (List.map pyDigitChar l) = l := by
  rw [List.map_map]
  have h : ∀ d ∈ l, (pyCharVal ∘ pyDigitChar) d = id d :=
    fun d hd => pyCharVal_pyDigitChar d (hl d hd)
  rw [List.map_congr_left h, List.map_id]

/-- Python's decimal rendering of a non-negative int is injective. -/
theorem pyNatStr_injective : ∀ a b : Nat, pyNatStr a = pyNatStr b → a = b := by
  have hdig : ∀ n : Nat, n ≠ 0 →
      String.mk (((Nat.digits 10 n).map pyDigitChar).reverse) = "0" → False := by
    intro n hn h
    have hd := congrArg String.data h
    simp only [String.data] at hd
    have h1 : (Nat.digits 10 n).map pyDigitChar = ['0'] := by
      have := congrArg List.reverse hd
      simpa using this
    obtain ⟨d, hd1⟩ := List.length_eq_one.mp
      (by rw [← List.length_map (f := pyDigitChar), h1]; rfl)
    rw [hd1] at h1
    have hdm : d ∈ Nat.digits 10 n := by rw [hd1]; simp
    have hdlt : d < 10 := Nat.digits_lt_base (by norm_num) hdm
    have hchar : pyDigitChar d = '0' := by
      simpa using h1
    have hd0 : d = 0 := by
      have := pyCharVal_pyDigitChar d hdlt
      rw [hchar] at this
      simpa [pyCharVal] using this.symm
    rw [hd0] at hd1
    have : n = Nat.ofDigits 10 (Nat.digits 10 n) := (Nat.ofDigits_digits 10 n).symm
    rw [hd1] at this
    simp [Nat.ofDigits] at this
    exact hn this
  intro a b h
  by_cases ha : a = 0 <;> by_cases hb : b = 0
  · rw [ha, hb]
  · exact absurd (by simpa [pyNatStr, ha, hb] using h.symm) (hdig b hb)
  · exact absurd (by simpa [pyNatStr, ha, hb] using h) (hdig a ha)
  · have hd := congrArg String.data (by simpa [pyNatStr, ha, hb] using h)
    simp only [String.data] at hd
    have h1 := List.reverse_injective hd
    have h2 := congrArg (List.map pyCharVal) h1
    rw [map_pyCharVal_map_pyDigitChar _
        (fun d hd => Nat.digits_lt_base (by norm_num) hd),
      map_pyCharVal_map_pyDigitChar _
        (fun d hd => Nat.digits_lt_base (by norm_num) hd)] at h2
    exact Nat.digits_inj_iff.mp h2

/-- Append to a fixed string on the left is injective. -/
theorem string_append_left_cancel {s a b : String} (h : s ++ a = s ++ b) : a = b := by
  have hd := congrArg String.data h
  rw [String.data_append, String.data_append] at hd
  exact String.ext (List.append_cancel_left hd)

/-- The statement of claim C9 as frozen, for the entities of this model:
operation ids are unique per submitted task, so any two tasks on
distinct concurrently live entities (distinct CPython ids) have distinct
operation ids. -/
def C9ClaimStatement : Prop :=
  (∀ t1 t2 : Tomogram, t1.pyId ≠ t2.pyId →
    load_tomogram_operation_id t1 ≠ load_tomogram_operation_id t2) ∧
  (∀ s1 s2 : Segmentation, s1.pyId ≠ s2.pyId →
    load_segmentation_operation_id s1 ≠ load_segmentation_operation_id s2) ∧
  (∀ r1 r2 : Run, r1.pyId ≠ r2.pyId →
    expand_run_operation_id r1 ≠ expand_run_operation_id r2) ∧
  (∀ v1 v2 : VoxelSpacing, v1.pyId ≠ v2.pyId →
    expand_voxel_spacing_operation_id v1 ≠ expand_voxel_spacing_operation_id v2)

/-- A second voxel spacing, distinct from vsTenA (different run and
CPython id) but rendered at the same voxel size 10.0. -/
def vsTenB : VoxelSpacing :=
  { voxelSizeStr := "10.0", runName := "run2",
    tomograms := [], segmentations := [], pyId := 42 }

/-- C9 fails on the code: expand operation ids carry no disambiguator, so
two distinct voxel spacings with the same rendered voxel size — both of
which a fresh widget accepts as concurrent submissions — share one
operation id. -/
theorem claim_C9_counterexample :
    vsTenA.pyId ≠ vsTenB.pyId ∧
    (expand_voxel_spacing_async initWidgetState ⟨0⟩ vsTenA).2.workerStarted = true ∧
    (expand_voxel_spacing_async
      (expand_voxel_spacing_async initWidgetState ⟨0⟩ vsTenA).1
      ⟨0⟩ vsTenB).2.workerStarted = true ∧
    expand_voxel_spacing_operation_id vsTenA = expand_voxel_spacing_operation_id vsTenB ∧
    ¬ C9ClaimStatement := by
  refine ⟨by decide, by decide, by decide, by decide, ?_⟩
  intro h
  exact h.2.2.2 vsTenA vsTenB (by decide) (by decide)

/-- The property claim C9 holds after amendment. -/
def C9AmendedProperty : Prop :=
  (∀ t1 t2 : Tomogram, t1.tomoType = t2.tomoType → t1.pyId ≠ t2.pyId →
    load_tomogram_operation_id t1 ≠ load_tomogram_operation_id t2) ∧
  (∀ s1 s2 : Segmentation, s1.name = s2.name → s1.pyId ≠ s2.pyId →
    load_segmentation_operation_id s1 ≠ load_segmentation_operation_id s2) ∧
  (∀ r1 r2 : Run,
    expand_run_operation_id r1 = expand_run_operation_id r2 ↔ r1.name = r2.name) ∧
  (∀ v1 v2 : VoxelSpacing,
    expand_voxel_spacing_operation_id v1 = expand_voxel_spacing_operation_id v2 ↔
      v1.voxelSizeStr = v2.voxelSizeStr)

/-- C9 as amended: load-task operation ids are kind + display name +
CPython id, so two concurrent loads of distinct live entities with the
same display name still get distinct ids thanks to the id disambiguator;
expand-task ids carry no disambiguator — they are kind + run name, or
kind + rendered voxel size — so they coincide exactly when those render
equally, and distinct concurrently submitted expand tasks can share one
operation id. -/
theorem claim_C9_amended : C9AmendedProperty := by
  refine ⟨?_, ?_, ?_, ?_⟩
  · intro t1 t2 hty hne h
    unfold load_tomogram_operation_id at h
    rw [← hty] at h
    exact hne (pyNatStr_injective _ _
      (string_append_left_cancel (s := "load_tomogram_" ++ t1.tomoType ++ "_") h))
  · intro s1 s2 hn hne h
    unfold load_segmentation_operation_id at h
    rw [← hn] at h
    exact hne (pyNatStr_injective _ _
      (string_append_left_cancel (s := "load_segmentation_" ++ s1.name ++ "_") h))
  · intro r1 r2
    constructor
    · intro h
      exact string_append_left_cancel (s := "expand_run_") h
    · intro h
      unfold expand_run_operation_id
      rw [h]
  · intro v1 v2
    constructor
    · intro h
      exact string_append_left_cancel (s := "expand_voxel_spacing_") h
    · intro h
      unfold expand_voxel_spacing_operation_id
      rw [h]

/-- A tomogram distinct from tomoThree but with the same display name. -/
def tomoSameType : Tomogram :=
  { tomoType := "wbp", zarrGroup := [], baseVoxelSize := 10, pyId := 13 }

theorem claim_C9_amended_witness :
    (tomoThree.tomoType = tomoSameType.tomoType ∧ tomoThree.pyId ≠ tomoSameType.pyId ∧
      load_tomogram_operation_id tomoThree ≠ load_tomogram_operation_id tomoSameType) ∧
    (expand_voxel_spacing_operation_id vsTenA = expand_voxel_spacing_operation_id vsTenB ↔
      vsTenA.voxelSizeStr = vsTenB.voxelSizeStr) :=
  ⟨⟨rfl, by decide,
    claim_C9_amended.1 tomoThree tomoSameType rfl (by decide)⟩,
   claim_C9_amended.2.2.2 vsTenA vsTenB⟩

/-! ## Cleanup idempotence (claim C8) -/

/-- Python dict del of a key: drop the first (for a dict: the only)
entry with that key; absent keys leave the list unchanged, modelling the
if-key-in-dict guard of the source. -/
def assocEraseKey {κ β : Type} [DecidableEq κ] (k : κ) :
    List (κ × β) → List (κ × β)
  | [] => []
  | (k', v) :: rest =>
    if k' = k then rest else (k', v) :: assocEraseKey k rest

/-- cleanup_worker (widget.py lines 858-866): drop the entity from the
loading-workers and loading-items dicts, each guarded by membership. -/
def cleanup_worker (st : WidgetState) (k : LoadKey) : WidgetState :=
  { st with loadingWorkers := st.loadingWorkers.erase k,
            loadingItems := assocEraseKey k st.loadingItems }

/-- cleanup_expansion_worker (widget.py lines 868-876, tree_widget.py
lines 287-293). -/
def cleanup_expansion_worker (st : WidgetState) (k : ExpandKey) : WidgetState :=
  { st with expansionWorkers := st.expansionWorkers.erase k,
            expansionItems := assocEraseKey k st.expansionItems }

theorem assocEraseKey_of_forall_ne {κ β : Type} [DecidableEq κ] (k : κ)
    (l : List (κ × β)) (h : ∀ p ∈ l, p.1 ≠ k) : assocEraseKey k l = l := by
  induction l with
  | nil => rfl
  | cons p rest ih =>
    obtain ⟨k', v⟩ := p
    have hk : k' ≠ k := h (k', v) (by simp)
    simp only [assocEraseKey, if_neg hk]
    rw [ih (fun q hq => h q (List.mem_cons_of_mem _ hq))]

theorem assocEraseKey_no_key {κ β : Type} [DecidableEq κ] (k : κ)
    (l : List (κ × β)) (h : (l.map Prod.fst).Nodup) :
    ∀ p ∈ assocEraseKey k l, p.1 ≠ k := by
  induction l with
  | nil => intro p hp; simp [assocEraseKey] at hp
  | cons q rest ih =>
    obtain ⟨k', v⟩ := q
    simp only [List.map_cons, List.nodup_cons] at h
    by_cases hk : k' = k
    · subst hk
      intro p hp hpk
      simp only [assocEraseKey, if_pos rfl] at hp
      exact h.1 (by rw [← hpk]; exact List.mem_map_of_mem Prod.fst hp)
    · intro p hp hpk
      simp only [assocEraseKey, if_neg hk] at hp
      rcases List.mem_cons.mp hp with h1 | h1
      · rw [h1] at hpk
        exact hk hpk
      · exact ih h.2 p h1 hpk

theorem assocEraseKey_idem {κ β : Type} [DecidableEq κ] (k : κ)
    (l : List (κ × β)) (h : (l.map Prod.fst).Nodup) :
    assocEraseKey k (assocEraseKey k l) = assocEraseKey k l :=
  assocEraseKey_of_forall_ne k _ (assocEraseKey_no_key k l h)

/-- The property asserted by claim C8. -/
def C8Property : Prop :=
  (∀ (tr : TrackerState) (opId : String),
    remove_operation (remove_operation tr opId) opId = remove_operation tr opId) ∧
  (∀ (tr : TrackerState) (opId : String), trackerInv tr →
    opId ∉ tr.activeOperations → remove_operation tr opId = tr) ∧
  (∀ (tr : TrackerState) (opId : String),
    (remove_operation tr opId).activeOperations.card =
      tr.activeOperations.card - (if opId ∈ tr.activeOperations then 1 else 0)) ∧
  (∀ (st : WidgetState) (k : LoadKey),
    st.loadingWorkers.Nodup → (st.loadingItems.map Prod.fst).Nodup →
      cleanup_worker (cleanup_worker st k) k = cleanup_worker st k) ∧
  (∀ (st : WidgetState) (k : LoadKey),
    k ∉ st.loadingWorkers → (∀ p ∈ st.loadingItems, p.1 ≠ k) →
      cleanup_worker st k = st) ∧
  (∀ (st : WidgetState) (k : ExpandKey),
    st.expansionWorkers.Nodup → (st.expansionItems.map Prod.fst).Nodup →
      cleanup_expansion_worker (cleanup_expansion_worker st k) k =
        cleanup_expansion_worker st k) ∧
  (∀ (st : WidgetState) (k : ExpandKey),
    k ∉ st.expansionWorkers → (∀ p ∈ st.expansionItems, p.1 ≠ k) →
      cleanup_expansion_worker st k = st)

/-- C8: removing an operation id and cleaning a worker registry entry are
idempotent — a second call after the first (or a call for an absent key)
is a no-op that raises nothing, and the operation count moves by at most
one, never below zero. -/
theorem claim_C8 : C8Property := by
  refine ⟨?_, ?_, ?_, ?_, ?_, ?_, ?_⟩
  · intro tr opId
    unfold remove_operation
    by_cases h : tr.activeOperations.erase opId = ∅ <;>
      simp [h, Finset.erase_idem]
  · intro tr opId hinv h
    unfold remove_operation
    rw [Finset.erase_eq_of_not_mem h]
    show ({ activeOperations := tr.activeOperations,
            visible := if tr.activeOperations = ∅ then false else tr.visible,
            label := tr.label } : TrackerState) = tr
    by_cases he : tr.activeOperations = ∅
    · have hv : tr.visible = false := by
        by_contra hvne
        have : tr.visible = true := by simpa using hvne
        exact (hinv.mp this) he
      rw [if_pos he, ← hv]
    · rw [if_neg he]
  · intro tr opId
    unfold remove_operation
    by_cases h : opId ∈ tr.activeOperations
    · rw [if_pos h]
      exact Finset.card_erase_of_mem h
    · rw [if_neg h, Finset.erase_eq_of_not_mem h]
      simp
  · intro st k hw hi
    simp only [cleanup_worker]
    rw [List.erase_of_not_mem hw.not_mem_erase, assocEraseKey_idem k _ hi]
  · intro st k hw hi
    simp only [cleanup_worker]
    rw [List.erase_of_not_mem hw, assocEraseKey_of_forall_ne k _ hi]
  · intro st k hw hi
    simp only [cleanup_expansion_worker]
    rw [List.erase_of_not_mem hw.not_mem_erase, assocEraseKey_idem k _ hi]
  · intro st k hw hi
    simp only [cleanup_expansion_worker]
    rw [List.erase_of_not_mem hw, assocEraseKey_of_forall_ne k _ hi]

/-- A tracker with one active operation, as after one add. -/
def trOneOp : TrackerState :=
  { activeOperations := {"load_tomogram_wbp_11"}, visible := true, label := "Loading..." }

theorem claim_C8_witness :
    (remove_operation (remove_operation trOneOp "load_tomogram_wbp_11")
      "load_tomogram_wbp_11" = remove_operation trOneOp "load_tomogram_wbp_11") ∧
    (trackerInv trOneOp ∧ "absent_id" ∉ trOneOp.activeOperations ∧
      remove_operation trOneOp "absent_id" = trOneOp) ∧
    (initWidgetState.loadingWorkers.Nodup ∧
      (initWidgetState.loadingItems.map Prod.fst).Nodup ∧
      cleanup_worker (cleanup_worker initWidgetState (LoadKey.tomo tomoThree))
        (LoadKey.tomo tomoThree) =
        cleanup_worker initWidgetState (LoadKey.tomo tomoThree)) ∧
    (ExpandKey.run runScenario ∉ initWidgetState.expansionWorkers ∧
      cleanup_expansion_worker initWidgetState (ExpandKey.run runScenario) =
        initWidgetState) :=
  ⟨claim_C8.1 trOneOp "load_tomogram_wbp_11",
   ⟨by simp [trackerInv, trOneOp], by decide,
    claim_C8.2.1 trOneOp "absent_id" (by simp [trackerInv, trOneOp]) (by decide)⟩,
   ⟨by decide, by decide,
    claim_C8.2.2.2.1 initWidgetState (LoadKey.tomo tomoThree) (by decide) (by decide)⟩,
   ⟨by decide,
    claim_C8.2.2.2.2.2.2 initWidgetState (ExpandKey.run runScenario) (by decide)
      (by decide)⟩⟩

/-! ## Witnesses for claims C3 and C5 -/

theorem claim_C3_witness :
    0 ≤ (5 : Int) ∧ 1 ≤ numLevels tomoThree ∧ C3Property tomoThree 5 :=
  ⟨by decide, by decide, claim_C3 tomoThree 5 (by decide) (by decide)⟩

theorem claim_C5_witness :
    (numLevels tomoNoLevels = 0 ∧
      load_tomogram_worker tomoNoLevels 3 =
        { result := .error (.noScaleLevels
            ("No scale levels found in tomogram: " ++ tomoNoLevels.tomoType)),
          warnings := [] }) ∧
    ((numLevels tomoThree : Int) ≤ 5 ∧ 1 ≤ numLevels tomoThree ∧
      ∃ r, (load_tomogram_worker tomoThree 5).result = .ok r ∧
        r.resolutionLevel = (numLevels tomoThree : Int) - 1) :=
  ⟨⟨by decide, (claim_C5 tomoNoLevels 3).1 (by decide)⟩,
   ⟨by decide, by decide, (claim_C5 tomoThree 5).2.1 (by decide) (by decide)⟩⟩

end NapariCopick
